import Mathlib

/-!
Verification of the medis in-memory key-value store (src/server.go).

The store `MiniRedis` maps keys to values with an optional absolute expiry
(`valueWithExpiry`); `time.Time` instants are modelled as natural numbers of
nanoseconds, with `none` standing for Go's zero `time.Time` (the
`expiry.IsZero()` sentinel meaning "never expires"). `time.Duration` values
are integers of nanoseconds (they can be negative). Fallible parsing is
passed in as a function returning `Option Int`. Each operation that can
mutate the map returns the new map explicitly.
-/

namespace Medis

/-- One stored record, Go's `valueWithExpiry`: the payload string and the
absolute expiry instant in nanoseconds; `none` models the zero `time.Time`,
i.e. the entry never expires. -/
structure Entry where
  value : String
  expiry : Option Nat
deriving Repr, DecidableEq

/-- The `data` field of `MiniRedis`, Go's `map[string]valueWithExpiry`. -/
abbrev Store := String → Option Entry

/-- The map `NewMiniRedis` starts from: no keys. -/
def emptyStore : Store := fun _ => none

/-- Nanoseconds per second, Go's `time.Second`. -/
def nanosPerSecond : Nat := 1000000000

/-- The guard `v.expiry.IsZero() || v.expiry.After(time.Now())` from `Get`:
the entry is still live at instant `now`. -/
def entryLive (v : Entry) (now : Nat) : Bool :=
  match v.expiry with
  | none => true
  | some t => decide (now < t)

/-- Go's builtin `delete(m.data, key)`. -/
def eraseKey (m : Store) (key : String) : Store :=
  fun k => if k = key then none else m k

/-- `MiniRedis.Set`: insert or fully replace the entry for `key`.
`expiresDuration` is the `*time.Duration` argument (`none` = nil pointer,
in nanoseconds); the expiry is set to `now + d` only when the pointer is
non-nil and `d.Seconds() > 0`, i.e. `0 < d`; otherwise the zero
`time.Time` (never expires) is stored. -/
def Set (m : Store) (now : Nat) (key value : String) (expiresDuration : Option Int) : Store :=
  let expiry : Option Nat :=
    match expiresDuration with
    | some d => if 0 < d then some ((now : Int) + d).toNat else none
    | none => none
  fun k => if k = key then some ⟨value, expiry⟩ else m k

/-- `MiniRedis.Get`: returns `(value, found)` and the map after the call
(the expired branch performs `delete(m.data, key)`). -/
def Get (m : Store) (now : Nat) (key : String) : String × Bool × Store :=
  match m key with
  | none => ("", false, m)
  | some v =>
      if entryLive v now then (v.value, true, m)
      else ("", false, eraseKey m key)

/-- `MiniRedis.Delete`: unconditional `delete(m.data, key)`. -/
def Delete (m : Store) (key : String) : Store :=
  eraseKey m key

/-- `MiniRedis.TTL`: returns `(seconds, found)` and the map after the call.
The remaining time is `int64(v.expiry.Sub(now).Seconds())`, i.e. the whole
seconds of the remaining duration, rounded towards zero. -/
def TTL (m : Store) (now : Nat) (key : String) : Int × Bool × Store :=
  match m key with
  | none => (-2, false, m)
  | some v =>
      match v.expiry with
      | none => (-1, true, m)
      | some t =>
          if now < t then (Int.ofNat ((t - now) / nanosPerSecond), true, m)
          else (-2, false, eraseKey m key)

/-- One tick of `MiniRedis.cleanupExpiredKeys`: under the lock, delete every
entry whose expiry is non-zero and strictly before `now`, keep the rest. -/
def cleanupExpiredKeys (m : Store) (now : Nat) : Store :=
  fun k =>
    match m k with
    | none => none
    | some v =>
        match v.expiry with
        | none => some v
        | some t => if t < now then none else some v

/-- ASCII uppercasing of a string, `strings.ToUpper` restricted to the ASCII
tokens the protocol compares. -/
def upperStr (s : String) : String :=
  String.mk (s.data.map Char.toUpper)

/-- `strings.TrimSpace` on the character list: drop whitespace from both ends. -/
def trimChars (cs : List Char) : List Char :=
  ((cs.dropWhile Char.isWhitespace).reverse.dropWhile Char.isWhitespace).reverse

/-- `strings.Fields` on the character list: split around runs of whitespace,
accumulating the current token in reverse in `acc`. -/
def fieldsAux : List Char → List Char → List String
  | [], acc => if acc.isEmpty then [] else [String.mk acc.reverse]
  | c :: cs, acc =>
      if c.isWhitespace then
        if acc.isEmpty then fieldsAux cs []
        else String.mk acc.reverse :: fieldsAux cs []
      else fieldsAux cs (c :: acc)

/-- The switch of `handleRequest` on one tokenized command line. `parseEx`
abstracts the standard library call `time.ParseDuration(tok ++ "s")`, giving
the parsed duration in nanoseconds or `none` on error. The result is the
response line written to the connection together with the map after the
command; `none` models the runtime panic of indexing `cmdParts[0]` on an
empty token list. -/
def handleCommand (parseEx : String → Option Int) (m : Store) (now : Nat)
    (cmdParts : List String) : Option (String × Store) :=
  match cmdParts with
  | [] => none
  | first :: _ =>
    if upperStr first = "SET" then
      if cmdParts.length < 3 then
        some ("ERR wrong number of arguments for 'SET' command\n", m)
      else if cmdParts.length = 5 ∧ upperStr (cmdParts.getD 3 "") = "EX" then
        match parseEx (cmdParts.getD 4 "") with
        | none => some ("ERR invalid expire time\n", m)
        | some d =>
            some ("OK\n", Set m now (cmdParts.getD 1 "") (cmdParts.getD 2 "") (some d))
      else
        some ("OK\n", Set m now (cmdParts.getD 1 "") (cmdParts.getD 2 "") none)
    else if upperStr first = "GET" then
      if cmdParts.length ≠ 2 then
        some ("-ERR wrong number of arguments for 'GET' command\n", m)
      else
        let r := Get m now (cmdParts.getD 1 "")
        if r.2.1 then some ("$" ++ r.1 ++ "\n", r.2.2)
        else some ("$-1\n", r.2.2)
    else if upperStr first = "DEL" then
      if cmdParts.length ≠ 2 then
        some ("-ERR wrong number of arguments for 'DEL' command\n", m)
      else some ("OK\n", Delete m (cmdParts.getD 1 ""))
    else if upperStr first = "TTL" then
      if cmdParts.length ≠ 2 then
        some ("-ERR wrong number of arguments for 'TTL' command\n", m)
      else
        let r := TTL m now (cmdParts.getD 1 "")
        if r.2.1 then some (toString r.1 ++ "\n", r.2.2)
        else some ("-2\n", r.2.2)
    else some ("-ERR unknown command\n", m)

/-- One iteration of `handleRequest`'s read loop on a received line:
`strings.TrimSpace`, `strings.Fields`, then the command switch. -/
def handleLine (parseEx : String → Option Int) (m : Store) (now : Nat)
    (line : String) : Option (String × Store) :=
  handleCommand parseEx m now (fieldsAux (trimChars line.data) [])

/-- A concrete instance of the duration parser used in witnesses: it parses
the token "5" as five seconds and fails on every other token, agreeing with
`time.ParseDuration` on the tokens the witnesses use ("5", "zz"). -/
def parseExSample (tok : String) : Option Int :=
  if tok = "5" then some (5 * (nanosPerSecond : Int)) else none

/-- A store holding one entry, already past its expiry at instant 20. -/
def sampleExpired : Store :=
  fun k => if k = "k" then some ⟨"v", some 10⟩ else none

/-- A store holding one entry expiring at 5 seconds (in nanoseconds). -/
def sampleFresh : Store :=
  fun k => if k = "k" then some ⟨"v", some 5000000000⟩ else none

theorem entryLive_iff (v : Entry) (now : Nat) :
    entryLive v now = true ↔
      (v.expiry = none ∨ ∃ t, v.expiry = some t ∧ now < t) := by
  cases h : v.expiry with
  | none => simp [entryLive, h]
  | some t => simp [entryLive, h]

/-- C1: `Get` returns the stored value with `found = true` iff the key is
present and either has no expiry or its expiry is strictly after `now`; on a
present-but-expired key it deletes the key (the resulting map holds `none`
for it) and returns `found = false`, and a subsequent `TTL` on the resulting
map reports the key absent with `(-2, false)`. -/
theorem Get_lazy_expiry_contract (m : Store) (now : Nat) (key : String) :
    ((Get m now key).2.1 = true ↔
      ∃ v, m key = some v ∧ (v.expiry = none ∨ ∃ t, v.expiry = some t ∧ now < t)) ∧
    (∀ v, m key = some v → entryLive v now = true →
      Get m now key = (v.value, true, m)) ∧
    (∀ v t, m key = some v → v.expiry = some t → t ≤ now →
      (Get m now key).2.1 = false ∧ (Get m now key).2.2 key = none ∧
      TTL (Get m now key).2.2 now key = (-2, false, (Get m now key).2.2)) := by
  refine ⟨?_, ?_, ?_⟩
  · constructor
    · intro h
      cases hm : m key with
      | none => simp [Get, hm] at h
      | some v =>
          refine ⟨v, rfl, (entryLive_iff v now).mp ?_⟩
          by_contra hnl
          rw [Bool.not_eq_true] at hnl
          simp [Get, hm, hnl] at h
    · rintro ⟨v, hm, hdis⟩
      have hl : entryLive v now = true := (entryLive_iff v now).mpr hdis
      simp [Get, hm, hl]
  · intro v hm hl
    simp [Get, hm, hl]
  · intro v t hm ht hle
    have hnl : entryLive v now = false := by
      simp [entryLive, ht]
      omega
    simp [Get, TTL, hm, hnl, eraseKey]

/-- C1 witness: at instant 20, the key "k" of `sampleExpired` (expiry 10) is
reported absent by `Get`, deleted from the map, and a subsequent `TTL` on the
resulting map returns `(-2, false)`. -/
theorem Get_lazy_expiry_contract_witness :
    (Get sampleExpired 20 "k").2.1 = false ∧
    (Get sampleExpired 20 "k").2.2 "k" = none ∧
    TTL (Get sampleExpired 20 "k").2.2 20 "k" =
      (-2, false, (Get sampleExpired 20 "k").2.2) :=
  (Get_lazy_expiry_contract sampleExpired 20 "k").2.2 ⟨"v", some 10⟩ 10 rfl rfl
    (by omega)

/-- C2: `TTL` has the four-way outcome: absent key gives `(-2, false)`;
present with no expiry gives `(-1, true)`; present with expiry strictly in
the future gives the remaining whole seconds with `found = true` and leaves
the map unchanged; present with expiry at or before `now` deletes the key
and gives `(-2, false)`. -/
theorem TTL_four_outcomes (m : Store) (now : Nat) (key : String) :
    (m key = none → TTL m now key = (-2, false, m)) ∧
    (∀ v, m key = some v → v.expiry = none → TTL m now key = (-1, true, m)) ∧
    (∀ v t, m key = some v → v.expiry = some t → now < t →
      TTL m now key = (Int.ofNat ((t - now) / nanosPerSecond), true, m)) ∧
    (∀ v t, m key = some v → v.expiry = some t → t ≤ now →
      TTL m now key = (-2, false, eraseKey m key) ∧
      (TTL m now key).2.2 key = none) := by
  refine ⟨?_, ?_, ?_, ?_⟩
  · intro hm; simp [TTL, hm]
  · intro v hm he; simp [TTL, hm, he]
  · intro v t hm he hlt; simp [TTL, hm, he, hlt]
  · intro v t hm he hle
    have hnl : ¬ now < t := by omega
    simp [TTL, hm, he, hnl, eraseKey]

/-- C2 witness: on `sampleFresh` (expiry 5 s in nanoseconds) at instant 1 s,
`TTL` of "k" returns the remaining whole seconds, found, and the map
unchanged. -/
theorem TTL_four_outcomes_witness :
    TTL sampleFresh 1000000000 "k" =
      (Int.ofNat ((5000000000 - 1000000000) / nanosPerSecond), true, sampleFresh) :=
  (TTL_four_outcomes sampleFresh 1000000000 "k").2.2.1 ⟨"v", some 5000000000⟩
    5000000000 rfl rfl (by omega)

/-- C6: one sweep pass removes exactly the entries whose expiry is non-zero
(`some`) and strictly before `now`, and keeps every other entry unchanged
(same key, same value, same expiry). -/
theorem cleanup_removes_exactly_expired (m : Store) (now : Nat) (k : String) :
    (m k = none → cleanupExpiredKeys m now k = none) ∧
    (∀ v t, m k = some v → v.expiry = some t → t < now →
      cleanupExpiredKeys m now k = none) ∧
    (∀ v, m k = some v → v.expiry = none →
      cleanupExpiredKeys m now k = some v) ∧
    (∀ v t, m k = some v → v.expiry = some t → now ≤ t →
      cleanupExpiredKeys m now k = some v) := by
  refine ⟨?_, ?_, ?_, ?_⟩
  · intro hm; simp [cleanupExpiredKeys, hm]
  · intro v t hm he hlt; simp [cleanupExpiredKeys, hm, he, hlt]
  · intro v hm he; simp [cleanupExpiredKeys, hm, he]
  · intro v t hm he hge
    have hnl : ¬ t < now := by omega
    simp [cleanupExpiredKeys, hm, he, hnl]

/-- C6 witness: the sweep at instant 20 removes the expired entry of
`sampleExpired` and keeps the unexpired entry of `sampleFresh`. -/
theorem cleanup_removes_exactly_expired_witness :
    cleanupExpiredKeys sampleExpired 20 "k" = none ∧
    cleanupExpiredKeys sampleFresh 20 "k" = some ⟨"v", some 5000000000⟩ :=
  ⟨(cleanup_removes_exactly_expired sampleExpired 20 "k").2.1 ⟨"v", some 10⟩ 10
      rfl rfl (by omega),
    (cleanup_removes_exactly_expired sampleFresh 20 "k").2.2.2 ⟨"v", some 5000000000⟩
      5000000000 rfl rfl (by omega)⟩

/-- C4: `Set` with an absent or non-positive duration stores an entry with
no expiry, and a `Set` without ttl fully replaces a prior `Set` with a ttl:
`TTL` after the overwrite returns `(-1, true)` and leaves the map unchanged,
with no stale countdown surviving. -/
theorem Set_overwrite_clears_expiry (m : Store) (n1 n2 n3 now : Nat)
    (k v v1 v2 : String) (d d1 : Option Int)
    (hd : d = none ∨ ∃ x, d = some x ∧ x ≤ 0) :
    Set m now k v d k = some ⟨v, none⟩ ∧
    TTL (Set (Set m n1 k v1 d1) n2 k v2 none) n3 k =
      (-1, true, Set (Set m n1 k v1 d1) n2 k v2 none) := by
  constructor
  · rcases hd with h | ⟨x, hx, hle⟩
    · simp [Set, h]
    · have hnp : ¬ (0 : Int) < x := by omega
      simp [Set, hx, hnp]
  · have hk : Set (Set m n1 k v1 d1) n2 k v2 none k = some ⟨v2, none⟩ := by
      simp [Set]
    simp [TTL, hk]

/-- C4 witness: `SET k v1 EX 5` then `SET k v2` (no EX) gives `TTL k = -1`,
found, map unchanged; and a `Set` with the negative duration -3 s stores no
expiry. -/
theorem Set_overwrite_clears_expiry_witness :
    Set emptyStore 7 "k" "v" (some (-3)) "k" = some ⟨"v", none⟩ ∧
    TTL (Set (Set emptyStore 1 "k" "v1" (some (5 * (nanosPerSecond : Int)))) 2
        "k" "v2" none) 3 "k" =
      (-1, true,
        Set (Set emptyStore 1 "k" "v1" (some (5 * (nanosPerSecond : Int)))) 2
          "k" "v2" none) :=
  Set_overwrite_clears_expiry emptyStore 1 2 3 7 "k" "v" "v1" "v2" (some (-3))
    (some (5 * (nanosPerSecond : Int))) (Or.inr ⟨-3, rfl, by decide⟩)

/-- C8: `Delete` is total and idempotent: it removes the key, it is a no-op
on a map where the key is absent, and deleting twice equals deleting once. -/
theorem Delete_idempotent_total (m : Store) (k : String) :
    Delete m k k = none ∧
    (m k = none → Delete m k = m) ∧
    Delete (Delete m k) k = Delete m k := by
  refine ⟨by simp [Delete, eraseKey], ?_, ?_⟩
  · intro h
    funext k2
    by_cases hk : k2 = k
    · simp [Delete, eraseKey, hk, h.symm]
    · simp [Delete, eraseKey, hk]
  · funext k2
    by_cases hk : k2 = k <;> simp [Delete, eraseKey, hk]

/-- C8 witness: deleting "a" from the empty store removes it, is a no-op,
and is idempotent. -/
theorem Delete_idempotent_total_witness :
    Delete emptyStore "a" "a" = none ∧
    (emptyStore "a" = none → Delete emptyStore "a" = emptyStore) ∧
    Delete (Delete emptyStore "a") "a" = Delete emptyStore "a" :=
  Delete_idempotent_total emptyStore "a"

/-- C9: `Set` and `Delete` modify at most the entry of the named key: every
other key maps to the same entry (presence, value, expiry) afterwards. -/
theorem Set_Delete_frame (m : Store) (now : Nat) (k v : String) (d : Option Int)
    (k2 : String) (hne : k2 ≠ k) :
    Set m now k v d k2 = m k2 ∧ Delete m k k2 = m k2 := by
  constructor <;> simp [Set, Delete, eraseKey, hne]

/-- C9 witness: setting or deleting "a" leaves the entry of "b" unchanged. -/
theorem Set_Delete_frame_witness :
    Set emptyStore 0 "a" "v" none "b" = emptyStore "b" ∧
    Delete emptyStore "a" "b" = emptyStore "b" :=
  Set_Delete_frame emptyStore 0 "a" "v" none "b" (by decide)

/-- C10: `Get` and `TTL` mutate the map only by deleting the queried key when
it is observed expired: on an absent or live key the map is unchanged, every
other key is always unchanged, and neither operation ever adds an entry. -/
theorem Get_TTL_frame (m : Store) (now : Nat) (key : String) :
    (m key = none → (Get m now key).2.2 = m ∧ (TTL m now key).2.2 = m) ∧
    (∀ v, m key = some v → entryLive v now = true → (Get m now key).2.2 = m) ∧
    (∀ v, m key = some v → v.expiry = none → (TTL m now key).2.2 = m) ∧
    (∀ v t, m key = some v → v.expiry = some t → now < t →
      (TTL m now key).2.2 = m) ∧
    (∀ k2, k2 ≠ key →
      (Get m now key).2.2 k2 = m k2 ∧ (TTL m now key).2.2 k2 = m k2) ∧
    (∀ k2, m k2 = none →
      (Get m now key).2.2 k2 = none ∧ (TTL m now key).2.2 k2 = none) := by
  have hget : ∀ k2, k2 ≠ key → (Get m now key).2.2 k2 = m k2 := by
    intro k2 hne
    cases hm : m key with
    | none => simp [Get, hm]
    | some v =>
        by_cases hl : entryLive v now
        · simp [Get, hm, hl]
        · simp [Get, hm, hl, eraseKey, hne]
  have httl : ∀ k2, k2 ≠ key → (TTL m now key).2.2 k2 = m k2 := by
    intro k2 hne
    cases hm : m key with
    | none => simp [TTL, hm]
    | some v =>
        cases he : v.expiry with
        | none => simp [TTL, hm, he]
        | some t =>
            by_cases hlt : now < t
            · simp [TTL, hm, he, hlt]
            · simp [TTL, hm, he, hlt, eraseKey, hne]
  refine ⟨?_, ?_, ?_, ?_, fun k2 hne => ⟨hget k2 hne, httl k2 hne⟩, ?_⟩
  · intro hm
    constructor <;> simp [Get, TTL, hm]
  · intro v hm hl
    simp [Get, hm, hl]
  · intro v hm he
    simp [TTL, hm, he]
  · intro v t hm he hlt
    simp [TTL, hm, he, hlt]
  · intro k2 hk2
    by_cases hne : k2 = key
    · subst hne
      constructor <;> simp [Get, TTL, hk2]
    · exact ⟨(hget k2 hne).trans hk2, (httl k2 hne).trans hk2⟩

/-- C10 witness: `Get` and `TTL` on the absent key "x" of `sampleFresh`
leave the map exactly as it was. -/
theorem Get_TTL_frame_witness :
    (Get sampleFresh 20 "x").2.2 = sampleFresh ∧
    (TTL sampleFresh 20 "x").2.2 = sampleFresh :=
  (Get_TTL_frame sampleFresh 20 "x").1 rfl

/-- C3 counterexample: the 4-token line "SET a b c" is not answered with an
arity error; the handler replies "OK" and calls `Store.Set`, creating the
key "a" that was absent before. -/
theorem SET_four_token_cx :
    handleLine parseExSample emptyStore 0 "SET a b c" =
      some ("OK\n", Set emptyStore 0 "a" "b" none) ∧
    Set emptyStore 0 "a" "b" none "a" = some ⟨"b", none⟩ ∧
    emptyStore "a" = none :=
  ⟨rfl, rfl, rfl⟩

/-- C3 (amended): a SET command is answered with the arity error exactly
when it has fewer than 3 tokens; with exactly 5 tokens whose fourth token
uppercased equals "EX", the fifth token is parsed as a duration, answering
the invalid-expire-time error without calling `Set` on failure and calling
`Set` with the parsed duration on success; every other shape with at least 3
tokens calls `Set` with no expiry, ignoring the extra tokens, and replies
"OK". -/
theorem SET_dispatch_shape (pe : String → Option Int) (m : Store) (now : Nat)
    (first : String) (rest : List String) (hfirst : upperStr first = "SET") :
    ((first :: rest).length < 3 →
      handleCommand pe m now (first :: rest) =
        some ("ERR wrong number of arguments for 'SET' command\n", m)) ∧
    (3 ≤ (first :: rest).length →
      ¬((first :: rest).length = 5 ∧ upperStr ((first :: rest).getD 3 "") = "EX") →
      handleCommand pe m now (first :: rest) =
        some ("OK\n",
          Set m now ((first :: rest).getD 1 "") ((first :: rest).getD 2 "") none)) ∧
    ((first :: rest).length = 5 → upperStr ((first :: rest).getD 3 "") = "EX" →
      pe ((first :: rest).getD 4 "") = none →
      handleCommand pe m now (first :: rest) =
        some ("ERR invalid expire time\n", m)) ∧
    (∀ d, (first :: rest).length = 5 → upperStr ((first :: rest).getD 3 "") = "EX" →
      pe ((first :: rest).getD 4 "") = some d →
      handleCommand pe m now (first :: rest) =
        some ("OK\n",
          Set m now ((first :: rest).getD 1 "") ((first :: rest).getD 2 "") (some d))) := by
  refine ⟨?_, ?_, ?_, ?_⟩
  · intro hlen
    cases rest with
    | nil => simp [handleCommand, hfirst]
    | cons a t =>
      cases t with
      | nil => simp [handleCommand, hfirst]
      | cons b t2 =>
        have : False := by
          simp only [List.length_cons] at hlen
          omega
        exact this.elim
  · intro hge hne
    have hnl : ¬ (first :: rest).length < 3 := by omega
    rw [handleCommand]
    rw [if_pos hfirst, if_neg hnl, if_neg hne]
  · intro h5 hex hpe
    have hnl : ¬ (first :: rest).length < 3 := by omega
    rw [handleCommand]
    rw [if_pos hfirst, if_neg hnl, if_pos ⟨h5, hex⟩, hpe]
  · intro d h5 hex hpe
    have hnl : ¬ (first :: rest).length < 3 := by omega
    rw [handleCommand]
    rw [if_pos hfirst, if_neg hnl, if_pos ⟨h5, hex⟩, hpe]

/-- C3 witness: "SET a b EX 5" with the sample parser stores the key with a
5-second expiry and replies "OK". -/
theorem SET_dispatch_shape_witness :
    handleCommand parseExSample emptyStore 0 ["SET", "a", "b", "EX", "5"] =
      some ("OK\n", Set emptyStore 0 "a" "b" (some (5 * (nanosPerSecond : Int)))) :=
  (SET_dispatch_shape parseExSample emptyStore 0 "SET" ["a", "b", "EX", "5"]
      rfl).2.2.2 (5 * (nanosPerSecond : Int)) rfl rfl rfl

/-- C5 counterexample: the 5-token line "SET k v XX zz" has a fifth token
that does not parse as a duration, yet the handler replies "OK" and mutates
the store (the fourth token is not "EX", so the parse guard is skipped). -/
theorem invalid_expire_nonEX_cx :
    handleLine parseExSample emptyStore 0 "SET k v XX zz" =
      some ("OK\n", Set emptyStore 0 "k" "v" none) ∧
    Set emptyStore 0 "k" "v" none "k" = some ⟨"v", none⟩ ∧
    emptyStore "k" = none ∧
    parseExSample "zz" = none :=
  ⟨rfl, rfl, rfl, rfl⟩

/-- C5 (amended): for every SET command of exactly 5 tokens whose fourth
token uppercased equals "EX" and whose fifth token does not parse as a
duration, the handler answers the invalid-expire-time error line and the
resulting map is exactly the map before the command. -/
theorem invalid_expire_guarded (pe : String → Option Int) (m : Store) (now : Nat)
    (c k v e s : String) (hc : upperStr c = "SET") (he : upperStr e = "EX")
    (hs : pe s = none) :
    handleCommand pe m now [c, k, v, e, s] =
      some ("ERR invalid expire time\n", m) := by
  simp [handleCommand, hc, he, hs]

/-- C5 witness: "SET k v EX zz" with the sample parser (which fails on "zz")
answers the invalid-expire-time error and keeps the empty store. -/
theorem invalid_expire_guarded_witness :
    handleCommand parseExSample emptyStore 0 ["SET", "k", "v", "EX", "zz"] =
      some ("ERR invalid expire time\n", emptyStore) :=
  invalid_expire_guarded parseExSample emptyStore 0 "SET" "k" "v" "EX" "zz"
    rfl rfl rfl

/-- C7: a blank or whitespace-only line tokenizes to the empty list, on
which `handleRequest` evaluates `cmdParts[0]`: the model returns `none`, the
value reserved for that out-of-range indexing, which in Go is a runtime
panic rather than the no-crash behavior the spec requires. -/
theorem blank_line_hits_empty_index :
    handleLine parseExSample emptyStore 0 "" = none ∧
    handleLine parseExSample emptyStore 0 " \t " = none :=
  ⟨rfl, rfl⟩

end Medis
